import Mathlib

/-!
Shallow embedding of `rotate-mac-address` (`src/main.rs`) and proofs of the
specification claims.

The program rotates a network interface's MAC address on a jittered cycle:
it repeatedly generates a random vendor-prefixed address, applies it via an
OS command (or merely reports it in dry-run mode), tracks consecutive
failures, and aborts after three consecutive failures with a collated error.

Modelling decisions:
* Randomness (`ThreadRng`) is modelled by explicit draw parameters: a raw
  natural-number draw is reduced into the requested range exactly as
  `gen_range` guarantees (`random_digit` maps a raw draw into `1..=9`,
  `sliceChoose` reduces a raw draw modulo the slice length).
* `f64` arithmetic in `variate` is modelled over `ℚ`; the values involved in
  the spec's scenarios are exactly representable dyadic rationals.
* The infinite `loop` in `rotate_mac_addresses` is modelled by a step
  function `iterate` over the failure log, driven by a finite trace of
  outcomes of `set_mac_address`, and a fold `run` of that step over a trace.
* Process spawning is modelled by an `Effect` trace plus an environment
  response `execResult` standing for `cmd.output()`.
* `Vendor::mac_address_prefix` is embedded as `vendorOctets`.
-/

namespace RotateMac

/-- Embeds the Rust enum `Vendor`. -/
inductive Vendor where
  | Intel
  | HewlettPackard
  | Foxconn
  | Cisco
  | Amd
deriving DecidableEq, Repr

/-- Embeds `Vendor::mac_address_prefix`: the fixed three-octet prefix string
of each vendor. -/
def vendorOctets : Vendor → String
  | .Intel => "00:1b:77"
  | .HewlettPackard => "00:1b:78"
  | .Foxconn => "00:01:6c"
  | .Cisco => "00:10:29"
  | .Amd => "00:0c:87"

/-- Embeds `impl Display for Vendor`. -/
def vendorDisplay : Vendor → String
  | .Intel => "Intel"
  | .HewlettPackard => "HP"
  | .Foxconn => "Foxconn"
  | .Cisco => "Cisco"
  | .Amd => "AMD"

/-- Embeds `static VENDORS: [Vendor; 5]`. -/
def VENDORS : List Vendor := [.Intel, .HewlettPackard, .Foxconn, .Cisco, .Amd]

/-- Embeds `const MAX_AMOUNT_OF_ERRORS: usize = 3`. -/
def MAX_AMOUNT_OF_ERRORS : Nat := 3

/-- Embeds `const CYCLE_VARIANCE: f64 = 0.25`. -/
def CYCLE_VARIANCE : ℚ := 1 / 4

/-- Embeds `const DEFAULT_CYCLE_SECONDS: usize = 30 * 60`. -/
def DEFAULT_CYCLE_SECONDS : Nat := 30 * 60

/-- Embeds `SliceRandom::choose` on a vendor slice: `None` on an empty slice,
otherwise a uniformly chosen element (the raw draw `r` reduced modulo the
length). -/
def sliceChoose (l : List Vendor) (r : Nat) : Option Vendor :=
  if h : l.length = 0 then none
  else some (l.get ⟨r % l.length, Nat.mod_lt r (Nat.pos_of_ne_zero h)⟩)

/-- Embeds `VendorPicker::pick` up to the final `.expect`: the `Option`
returned by `VENDORS.choose(rng)`.  The claim about the picker is that this
is never `none`. -/
def VendorPicker.pick (r : Nat) : Option Vendor := sliceChoose VENDORS r

/-- The total vendor pick as `rotate-mac-address` uses it after
`.expect("`VENDORS` cannot be empty")`; the default is never reached, see the
totality theorem for the picker. -/
def pickVendor (r : Nat) : Vendor := (VendorPicker.pick r).getD Vendor.Intel

/-- Embeds `random_digit`: `rng.gen_range(1..=9)`.  The raw draw `r` is
reduced into the inclusive range `[1, 9]`. -/
def random_digit (r : Nat) : Nat := 1 + r % 9

/-- Embeds `new_random_mac_address`.  `vr` is the raw draw used by the vendor
picker and `rs` is the stream of raw draws consumed by `random_digit`, two
per fold step.  The fold over `1..=LENGTH` mirrors the Rust fold, including
its starting accumulator `prefix + ":"` and the conditional separator push. -/
def new_random_mac_address (vr : Nat) (rs : Nat → Nat) : Vendor × String :=
  let vendor := pickVendor vr
  let LENGTH : Nat := 3
  let new_address :=
    ((List.range' 1 LENGTH).foldl
      (fun (acc : String × Nat) i =>
        let addr := acc.1
        let pos := acc.2
        let first := random_digit (rs pos)
        let second := random_digit (rs (pos + 1))
        let addr := addr ++ toString first ++ toString second
        let addr := if i < LENGTH then addr ++ ":" else addr
        (addr, pos + 2))
      (vendorOctets vendor ++ ":", 0)).1
  (vendor, new_address)

/-- Embeds `variate`: `base` is the raw uniform draw `rng.gen_range(0.0..=1.0)`,
made an explicit parameter. -/
def variate (base : ℚ) (seconds : Nat) (variance : ℚ) : ℚ :=
  let delta := (base - 1 / 2) * variance
  (seconds : ℚ) + (seconds : ℚ) * delta

/-- Embeds `Duration::from_millis((variation.round() * 1000.0) as u64)`:
the wait duration in milliseconds. -/
def duration_millis (variation : ℚ) : ℤ := round variation * 1000

/-- Embeds `duration.as_secs()` for the duration built from `variation`. -/
def duration_as_secs (variation : ℚ) : ℤ := duration_millis variation / 1000

/-- Embeds the `cfg`-selected platform: Linux uses `ip`, other Unix-like
systems use `ifconfig`. -/
inductive Platform where
  | linux
  | otherUnix
deriving DecidableEq, Repr

/-- Embeds `const PROGRAM: &str` for each platform. -/
def PROGRAM : Platform → String
  | .linux => "ip"
  | .otherUnix => "ifconfig"

/-- Embeds `new_set_mac_address`: the argument list handed to `Command`,
per platform. -/
def new_set_mac_address (p : Platform) (interface_name new_mac_address : String) :
    List String :=
  match p with
  | .linux => ["link", "set", "dev", interface_name, "addr", new_mac_address]
  | .otherUnix => [interface_name, "ether", new_mac_address]

/-- Embeds the `args_str` fold in `set_mac_address`: the arguments joined by
single spaces, no trailing space. -/
def args_str_of (args : List String) : String :=
  let length := args.length
  (args.zip (List.range' 1 length)).foldl
    (fun s p =>
      let s := s ++ p.1
      if p.2 < length then s ++ " " else s)
    ""

/-- Observable side effects of one `set_mac_address` call: either the external
command is executed, or a line is printed. -/
inductive Effect where
  | execute (program : String) (args : List String)
  | report (line : String)
deriving DecidableEq, Repr

/-- Embeds `set_mac_address`.  `execResult` models the environment's response
to `cmd.output()` (only consulted when the command is actually run);
`vr`/`rs` are the raw random draws.  Returns the effect trace and the
`Result` value. -/
def set_mac_address (p : Platform) (execResult : Except String Unit)
    (vr : Nat) (rs : Nat → Nat) (interface_name : String) (dry_run : Bool) :
    List Effect × Except String (String × Vendor) :=
  let generated := new_random_mac_address vr rs
  let vendor := generated.1
  let new_address := generated.2
  let args := new_set_mac_address p interface_name new_address
  if dry_run then
    ([Effect.report ("Dry-running enabled; would otherwise run `" ++
        PROGRAM p ++ " " ++ args_str_of args ++ "`")],
      Except.ok (new_address, vendor))
  else
    match execResult with
    | Except.ok _ => ([Effect.execute (PROGRAM p) args],
        Except.ok (new_address, vendor))
    | Except.error e => ([Effect.execute (PROGRAM p) args], Except.error e)

/-- Embeds `collate_errors`: `"Failures: "` followed by the error
descriptions joined by `", "`, no trailing separator. -/
def collate_errors (errors : List String) : String :=
  let length := errors.length
  let message :=
    (errors.zip (List.range' 1 length)).foldl
      (fun overall p =>
        let overall := overall ++ p.1
        if p.2 < length then overall ++ ", " else overall)
      ""
  "Failures: " ++ message

/-- The success line printed by the loop body of `rotate_mac_addresses`. -/
def success_line (interface_name new_address : String) (vendor : Vendor) : String :=
  "Successfully changed MAC address on interface " ++ interface_name ++
    " to " ++ new_address ++ " of vendor " ++ vendorDisplay vendor

/-- The warning line printed by the loop body of `rotate_mac_addresses` on a
failure, naming the remaining tolerated consecutive failures. -/
def failure_line (interface_name : String) (errors_count : Nat) : String :=
  "Failed to change MAC address on interface " ++ interface_name ++
    ". Only " ++ toString errors_count ++
    " sequential errors left until the program aborts."

/-- Embeds one iteration of the `loop` in `rotate_mac_addresses`, given the
current failure log and the `change_result` of `set_mac_address`.  Returns
the printed lines and either the updated failure log (`Sum.inl`, loop
continues) or the collated abort error (`Sum.inr`, loop breaks). -/
def iterate (interface_name : String) (errors : List String)
    (change_result : Except String (String × Vendor)) :
    List String × (List String ⊕ String) :=
  match change_result with
  | Except.ok (new_address, vendor) =>
    ([success_line interface_name new_address vendor], Sum.inl [])
  | Except.error err =>
    let errors' := errors ++ [err]
    let errors_count := MAX_AMOUNT_OF_ERRORS - errors'.length
    ([failure_line interface_name errors_count],
      if MAX_AMOUNT_OF_ERRORS ≤ errors'.length then
        Sum.inr (collate_errors errors')
      else
        Sum.inl errors')

/-- Runs the `rotate_mac_addresses` loop over a finite trace of
`set_mac_address` outcomes.  `Sum.inl e` means the controller is still
`Running` with failure log `e`; `Sum.inr msg` means it reached the terminal
`Aborted` state with collated error `msg`, consuming no further outcomes. -/
def run (interface_name : String) (errors : List String) :
    List (Except String (String × Vendor)) → List String ⊕ String
  | [] => Sum.inl errors
  | r :: rest =>
    match (iterate interface_name errors r).2 with
    | Sum.inl errors' => run interface_name errors' rest
    | Sum.inr msg => Sum.inr msg

/-! ## Helper lemmas -/

/-- A digit drawn by `random_digit` prints as a single character in
`'1'..'9'`, never `'0'` and never the separator `':'`. -/
theorem random_digit_toString (r : Nat) :
    (toString (random_digit r)).length = 1 ∧
      ∀ c ∈ (toString (random_digit r)).data, ('1' ≤ c ∧ c ≤ '9') ∧ c ≠ ':' := by
  unfold random_digit
  have h : r % 9 < 9 := Nat.mod_lt r (by norm_num)
  set k := r % 9 with hk
  interval_cases k <;> exact ⟨by decide, by decide⟩

/-- Unfolding of the address-building fold of `new_random_mac_address`. -/
theorem new_random_mac_address_eq (vr : Nat) (rs : Nat → Nat) :
    (new_random_mac_address vr rs).2 =
      vendorOctets (pickVendor vr) ++ ":" ++
        (toString (random_digit (rs 0)) ++ toString (random_digit (rs 1))) ++ ":" ++
        (toString (random_digit (rs 2)) ++ toString (random_digit (rs 3))) ++ ":" ++
        (toString (random_digit (rs 4)) ++ toString (random_digit (rs 5))) := by
  simp [new_random_mac_address, List.range', String.append_assoc]

/-- `collate_errors` on a three-element log is the label followed by the
three descriptions joined by `", "`. -/
theorem collate_errors_three (d1 d2 d3 : String) :
    collate_errors [d1, d2, d3] = "Failures: " ++ d1 ++ ", " ++ d2 ++ ", " ++ d3 := by
  simp [collate_errors, List.range', String.append_assoc]

/-- `run` splits over a concatenation of outcome traces. -/
theorem run_append (interface_name : String) (errors : List String)
    (xs ys : List (Except String (String × Vendor))) :
    run interface_name errors (xs ++ ys) =
      match run interface_name errors xs with
      | Sum.inl e => run interface_name e ys
      | Sum.inr m => Sum.inr m := by
  induction xs generalizing errors with
  | nil => rfl
  | cons x xs ih =>
    simp only [List.cons_append, run]
    cases h : (iterate interface_name errors x).2 with
    | inl e => exact ih e
    | inr m => rfl

/-- Whenever the controller is still `Running` after a trace, its failure log
holds at most `MAX_AMOUNT_OF_ERRORS - 1` entries (given it did at the start). -/
theorem run_log_bound_aux (interface_name : String)
    (xs : List (Except String (String × Vendor))) :
    ∀ errors e : List String, errors.length ≤ 2 →
      run interface_name errors xs = Sum.inl e → e.length ≤ 2 := by
  induction xs with
  | nil =>
    intro errors e hlen h
    simp only [run] at h
    cases h
    exact hlen
  | cons x xs ih =>
    intro errors e hlen h
    cases x with
    | ok v =>
      obtain ⟨a, b⟩ := v
      simp only [run, iterate] at h
      exact ih [] e (by norm_num) h
    | error d =>
      simp only [run, iterate] at h
      by_cases hc : MAX_AMOUNT_OF_ERRORS ≤ (errors ++ [d]).length
      · rw [if_pos hc] at h
        cases h
      · rw [if_neg hc] at h
        refine ih (errors ++ [d]) e ?_ h
        simp only [List.length_append, List.length_singleton] at hc ⊢
        simp only [MAX_AMOUNT_OF_ERRORS] at hc
        omega

/-! ## Claim theorems -/

/-- The address structure, given a decomposition of the picked vendor's
fixed octets.  The last three octets of the generated address are the
printed digit pairs; all the structural facts of claim C2 follow. -/
theorem generated_address_structure_aux (vr : Nat) (rs : Nat → Nat)
    (p1 p2 p3 : String)
    (hp : vendorOctets (pickVendor vr) = p1 ++ ":" ++ p2 ++ ":" ++ p3)
    (hplen : p1.length = 2 ∧ p2.length = 2 ∧ p3.length = 2)
    (hpcol : ∀ s ∈ [p1, p2, p3], ∀ c ∈ s.data, c ≠ ':') :
    ∃ o1 o2 o3 : String,
      (new_random_mac_address vr rs).2 =
        p1 ++ ":" ++ p2 ++ ":" ++ p3 ++ ":" ++ o1 ++ ":" ++ o2 ++ ":" ++ o3 ∧
      vendorOctets (new_random_mac_address vr rs).1 =
        p1 ++ ":" ++ p2 ++ ":" ++ p3 ∧
      (∀ s ∈ [p1, p2, p3, o1, o2, o3], s.length = 2) ∧
      (∀ s ∈ [o1, o2, o3], ∀ c ∈ s.data, '1' ≤ c ∧ c ≤ '9') ∧
      (∀ s ∈ [p1, p2, p3, o1, o2, o3], ∀ c ∈ s.data, c ≠ ':') := by
  obtain ⟨hl0, hc0⟩ := random_digit_toString (rs 0)
  obtain ⟨hl1, hc1⟩ := random_digit_toString (rs 1)
  obtain ⟨hl2, hc2⟩ := random_digit_toString (rs 2)
  obtain ⟨hl3, hc3⟩ := random_digit_toString (rs 3)
  obtain ⟨hl4, hc4⟩ := random_digit_toString (rs 4)
  obtain ⟨hl5, hc5⟩ := random_digit_toString (rs 5)
  have hocts : ∀ a b : Nat,
      (∀ c ∈ (toString a).data, ('1' ≤ c ∧ c ≤ '9') ∧ c ≠ ':') →
      (∀ c ∈ (toString b).data, ('1' ≤ c ∧ c ≤ '9') ∧ c ≠ ':') →
      ∀ c ∈ (toString a ++ toString b).data, ('1' ≤ c ∧ c ≤ '9') ∧ c ≠ ':' := by
    intro a b ha hb c hc
    rw [String.data_append] at hc
    rcases List.mem_append.mp hc with h | h
    · exact ha c h
    · exact hb c h
  have ho1 := hocts _ _ hc0 hc1
  have ho2 := hocts _ _ hc2 hc3
  have ho3 := hocts _ _ hc4 hc5
  refine ⟨toString (random_digit (rs 0)) ++ toString (random_digit (rs 1)),
    toString (random_digit (rs 2)) ++ toString (random_digit (rs 3)),
    toString (random_digit (rs 4)) ++ toString (random_digit (rs 5)),
    ?_, hp, ?_, ?_, ?_⟩
  · rw [new_random_mac_address_eq vr rs, hp]
  · intro s hs
    simp only [List.mem_cons, List.mem_singleton, List.not_mem_nil, or_false] at hs
    rcases hs with rfl | rfl | rfl | rfl | rfl | rfl
    · exact hplen.1
    · exact hplen.2.1
    · exact hplen.2.2
    · rw [String.length_append, hl0, hl1]
    · rw [String.length_append, hl2, hl3]
    · rw [String.length_append, hl4, hl5]
  · intro s hs
    simp only [List.mem_cons, List.mem_singleton, List.not_mem_nil, or_false] at hs
    rcases hs with rfl | rfl | rfl
    · exact fun c hc => (ho1 c hc).1
    · exact fun c hc => (ho2 c hc).1
    · exact fun c hc => (ho3 c hc).1
  · intro s hs
    simp only [List.mem_cons, List.mem_singleton, List.not_mem_nil, or_false] at hs
    rcases hs with rfl | rfl | rfl | rfl | rfl | rfl
    · exact hpcol _ (by simp)
    · exact hpcol _ (by simp)
    · exact hpcol _ (by simp)
    · exact fun c hc => (ho1 c hc).2
    · exact fun c hc => (ho2 c hc).2
    · exact fun c hc => (ho3 c hc).2

/-- Claim C2: every generated (vendor, address) pair has an address of six
colon-separated two-character octets with no trailing colon: the first three
octets are exactly the chosen vendor's fixed octets, and each of the last
three consists of two decimal digit characters in '1'..'9' (never '0').
No octet contains the separator, so the decomposition is the unique
colon-split. -/
theorem generated_address_structure (vr : Nat) (rs : Nat → Nat) :
    ∃ p1 p2 p3 o1 o2 o3 : String,
      (new_random_mac_address vr rs).2 =
        p1 ++ ":" ++ p2 ++ ":" ++ p3 ++ ":" ++ o1 ++ ":" ++ o2 ++ ":" ++ o3 ∧
      vendorOctets (new_random_mac_address vr rs).1 =
        p1 ++ ":" ++ p2 ++ ":" ++ p3 ∧
      (∀ s ∈ [p1, p2, p3, o1, o2, o3], s.length = 2) ∧
      (∀ s ∈ [o1, o2, o3], ∀ c ∈ s.data, '1' ≤ c ∧ c ≤ '9') ∧
      (∀ s ∈ [p1, p2, p3, o1, o2, o3], ∀ c ∈ s.data, c ≠ ':') := by
  cases hv : pickVendor vr with
  | Intel =>
    exact ⟨"00", "1b", "77", generated_address_structure_aux vr rs "00" "1b" "77"
      (by rw [hv]; decide) (by decide) (by decide)⟩
  | HewlettPackard =>
    exact ⟨"00", "1b", "78", generated_address_structure_aux vr rs "00" "1b" "78"
      (by rw [hv]; decide) (by decide) (by decide)⟩
  | Foxconn =>
    exact ⟨"00", "01", "6c", generated_address_structure_aux vr rs "00" "01" "6c"
      (by rw [hv]; decide) (by decide) (by decide)⟩
  | Cisco =>
    exact ⟨"00", "10", "29", generated_address_structure_aux vr rs "00" "10" "29"
      (by rw [hv]; decide) (by decide) (by decide)⟩
  | Amd =>
    exact ⟨"00", "0c", "87", generated_address_structure_aux vr rs "00" "0c" "87"
      (by rw [hv]; decide) (by decide) (by decide)⟩
/-- Claim C3: for every nominal cycle length `N > 0`, variance `V ∈ [0,1]`
and random base draw in `[0,1]`, `variate` returns
`N + N * (base - 0.5) * V`, which lies within `[N*(1 - V/2), N*(1 + V/2)]`
inclusive. -/
theorem variate_within_bounds (N : Nat) (V base : ℚ)
    (hN : 0 < N) (hV0 : 0 ≤ V) (hV1 : V ≤ 1) (hb0 : 0 ≤ base) (hb1 : base ≤ 1) :
    variate base N V = (N : ℚ) + (N : ℚ) * ((base - 1 / 2) * V) ∧
    (N : ℚ) * (1 - V / 2) ≤ variate base N V ∧
    variate base N V ≤ (N : ℚ) * (1 + V / 2) := by
  have hN' : (0 : ℚ) ≤ (N : ℚ) := by positivity
  refine ⟨rfl, ?_, ?_⟩ <;>
  · unfold variate
    nlinarith [mul_nonneg (mul_nonneg hN' hV0) hb0,
      mul_nonneg (mul_nonneg hN' hV0) (sub_nonneg.mpr hb1)]

/-- Witness for C3 at `N = 1800`, `V = CYCLE_VARIANCE`, `base = 1`. -/
theorem variate_within_bounds_witness :
    variate 1 1800 CYCLE_VARIANCE =
      ((1800 : Nat) : ℚ) + ((1800 : Nat) : ℚ) * ((1 - 1 / 2) * CYCLE_VARIANCE) ∧
    ((1800 : Nat) : ℚ) * (1 - CYCLE_VARIANCE / 2) ≤ variate 1 1800 CYCLE_VARIANCE ∧
    variate 1 1800 CYCLE_VARIANCE ≤ ((1800 : Nat) : ℚ) * (1 + CYCLE_VARIANCE / 2) :=
  variate_within_bounds 1800 CYCLE_VARIANCE 1 (by norm_num)
    (by norm_num [CYCLE_VARIANCE]) (by norm_num [CYCLE_VARIANCE])
    (by norm_num) (by norm_num)

/-- Claim C8: with cycle seconds 1800, variance 0.25 and random base draw
exactly 1, `variate` returns exactly 2025 seconds, rounding yields 2025, and
the derived wait duration reports 2025 whole seconds. -/
theorem variate_scenario_2025 :
    variate 1 1800 CYCLE_VARIANCE = 2025 ∧
    round (variate 1 1800 CYCLE_VARIANCE) = (2025 : ℤ) ∧
    duration_as_secs (variate 1 1800 CYCLE_VARIANCE) = 2025 := by
  have h : variate 1 1800 CYCLE_VARIANCE = (2025 : ℚ) := by
    norm_num [variate, CYCLE_VARIANCE]
  refine ⟨h, ?_, ?_⟩
  · rw [h]; norm_num
  · rw [duration_as_secs, duration_millis, h]; norm_num

/-- Claim C10: with variance 0, `variate` returns exactly the nominal cycle
length, for every base draw in `[0,1]`. -/
theorem variate_zero_variance (N : Nat) (base : ℚ)
    (hb0 : 0 ≤ base) (hb1 : base ≤ 1) :
    variate base N 0 = (N : ℚ) := by
  unfold variate
  ring

/-- Witness for C10 at `N = DEFAULT_CYCLE_SECONDS`, `base = 1`. -/
theorem variate_zero_variance_witness :
    variate 1 DEFAULT_CYCLE_SECONDS 0 = ((DEFAULT_CYCLE_SECONDS : Nat) : ℚ) :=
  variate_zero_variance DEFAULT_CYCLE_SECONDS 1 (by norm_num) (by norm_num)

/-- Claim C7: the vendor table is a fixed non-empty collection of 5 vendors,
so the random pick never hits the empty-collection branch: it returns `some`
vendor for every raw draw. -/
theorem vendors_nonempty_pick_total :
    VENDORS ≠ [] ∧ VENDORS.length = 5 ∧
      ∀ r : Nat, ∃ v, VendorPicker.pick r = some v := by
  refine ⟨by decide, by decide, fun r => ?_⟩
  unfold VendorPicker.pick sliceChoose
  rw [dif_neg (by decide)]
  exact ⟨_, rfl⟩

/-- Claim C6: with the dry-run flag set, `set_mac_address` always returns
`Ok` (never a command error) and never executes the external
interface-configuration command, for every platform, environment response,
random draw and interface name. -/
theorem dry_run_always_ok (p : Platform) (execResult : Except String Unit)
    (vr : Nat) (rs : Nat → Nat) (interface_name : String) :
    (set_mac_address p execResult vr rs interface_name true).2 =
      Except.ok ((new_random_mac_address vr rs).2, (new_random_mac_address vr rs).1) ∧
    ∀ eff ∈ (set_mac_address p execResult vr rs interface_name true).1,
      ∀ prog args, eff ≠ Effect.execute prog args := by
  refine ⟨rfl, ?_⟩
  intro eff heff prog args
  simp only [set_mac_address, if_pos, List.mem_singleton] at heff
  subst heff
  simp

/-- Claim C1: after any trace that leaves the failure log empty, three
consecutive command failures with no intervening success drive the
controller into the terminal `Aborted` state whose error message is exactly
`"Failures: "` followed by the three failure descriptions in order,
separated by `", "` with no trailing separator. -/
theorem abort_after_three_consecutive_failures (interface_name : String)
    (pre : List (Except String (String × Vendor))) (d1 d2 d3 : String)
    (h : run interface_name [] pre = Sum.inl []) :
    run interface_name []
        (pre ++ [Except.error d1, Except.error d2, Except.error d3]) =
      Sum.inr ("Failures: " ++ d1 ++ ", " ++ d2 ++ ", " ++ d3) := by
  rw [run_append, h]
  show run interface_name [] [Except.error d1, Except.error d2, Except.error d3] = _
  have h3 : collate_errors [d1, d2, d3] =
      "Failures: " ++ d1 ++ ", " ++ d2 ++ ", " ++ d3 := collate_errors_three d1 d2 d3
  simp [run, iterate, MAX_AMOUNT_OF_ERRORS, h3]

/-- Witness for C1 with the empty prior trace and descriptions "a", "b", "c". -/
theorem abort_after_three_consecutive_failures_witness :
    run "eth0" []
        ([] ++ [Except.error "a", Except.error "b", Except.error "c"]) =
      Sum.inr ("Failures: " ++ "a" ++ ", " ++ "b" ++ ", " ++ "c") :=
  abort_after_three_consecutive_failures "eth0" [] "a" "b" "c" rfl

/-- Claim C4: at the start of every loop iteration reached from the initial
empty log the failure log holds at most 2 entries, and a failure that makes
the log reach the threshold (3) terminates the loop with the collated
error. -/
theorem failure_log_invariant (interface_name : String)
    (xs : List (Except String (String × Vendor))) (e : List String) :
    (run interface_name [] xs = Sum.inl e → e.length ≤ MAX_AMOUNT_OF_ERRORS - 1) ∧
    ∀ errors d, errors.length = MAX_AMOUNT_OF_ERRORS - 1 →
      (iterate interface_name errors (Except.error d)).2 =
        Sum.inr (collate_errors (errors ++ [d])) := by
  constructor
  · intro h
    exact run_log_bound_aux interface_name xs [] e (by norm_num) h
  · intro errors d hlen
    have hc : MAX_AMOUNT_OF_ERRORS ≤ (errors ++ [d]).length := by
      simp only [List.length_append, List.length_singleton, hlen,
        MAX_AMOUNT_OF_ERRORS]
      omega
    simp only [iterate, if_pos hc]

/-- Witness for C4: a single-failure trace leaves one logged error, and a
third failure on a two-entry log aborts with the collated error. -/
theorem failure_log_invariant_witness :
    (["a"] : List String).length ≤ MAX_AMOUNT_OF_ERRORS - 1 ∧
    (iterate "eth0" ["e1", "e2"] (Except.error "e3")).2 =
      Sum.inr (collate_errors (["e1", "e2"] ++ ["e3"])) :=
  ⟨(failure_log_invariant "eth0" [Except.error "a"] ["a"]).1 (by rfl),
    (failure_log_invariant "eth0" [] []).2 ["e1", "e2"] "e3" (by decide)⟩

/-- Claim C5: a successful apply outcome resets a failure log of length 1 or
2 to length 0, so from that point the run continues exactly as from an empty
log: consecutive-failure counts never accumulate across a success
boundary. -/
theorem success_resets_failure_log (interface_name new_address : String)
    (vendor : Vendor) (errors : List String)
    (h : errors.length = 1 ∨ errors.length = 2)
    (rest : List (Except String (String × Vendor))) :
    (iterate interface_name errors (Except.ok (new_address, vendor))).2 =
      Sum.inl [] ∧
    run interface_name errors (Except.ok (new_address, vendor) :: rest) =
      run interface_name [] rest :=
  ⟨rfl, rfl⟩

/-- Witness for C5 with a one-entry failure log. -/
theorem success_resets_failure_log_witness :
    (iterate "eth0" ["e1"] (Except.ok ("00:1b:77:11:22:33", Vendor.Intel))).2 =
      Sum.inl [] ∧
    run "eth0" ["e1"] (Except.ok ("00:1b:77:11:22:33", Vendor.Intel) :: []) =
      run "eth0" [] [] :=
  success_resets_failure_log "eth0" "00:1b:77:11:22:33" Vendor.Intel ["e1"]
    (Or.inl rfl) []

/-- Claim C9: on every failure from a reachable log (length at most 2), the
emitted warning names exactly the abort threshold minus the log length after
the current failure has been appended, and that subtraction does not
truncate. -/
theorem failure_warning_names_remaining (interface_name err : String)
    (errors : List String) (h : errors.length ≤ MAX_AMOUNT_OF_ERRORS - 1) :
    (iterate interface_name errors (Except.error err)).1 =
      [failure_line interface_name
        (MAX_AMOUNT_OF_ERRORS - (errors ++ [err]).length)] ∧
    ((MAX_AMOUNT_OF_ERRORS - (errors ++ [err]).length : Nat) : ℤ) =
      (MAX_AMOUNT_OF_ERRORS : ℤ) - ((errors ++ [err]).length : ℤ) := by
  refine ⟨rfl, ?_⟩
  simp only [MAX_AMOUNT_OF_ERRORS, List.length_append, List.length_singleton] at h ⊢
  omega

/-- Witness for C9 with a one-entry failure log. -/
theorem failure_warning_names_remaining_witness :
    (iterate "eth0" ["e1"] (Except.error "e2")).1 =
      [failure_line "eth0"
        (MAX_AMOUNT_OF_ERRORS - ((["e1"] : List String) ++ ["e2"]).length)] ∧
    ((MAX_AMOUNT_OF_ERRORS - ((["e1"] : List String) ++ ["e2"]).length : Nat) : ℤ) =
      (MAX_AMOUNT_OF_ERRORS : ℤ) - (((["e1"] : List String) ++ ["e2"]).length : ℤ) :=
  failure_warning_names_remaining "eth0" "e2" ["e1"] (by decide)

end RotateMac
